import Mathlib

/-!
Verification development for the roster comparison script
(src/roster_compare.py).  The script fetches two seasonal roster
documents over HTTP, extracts player-name sets per position group,
and prints a set-difference report.  Everything below is a shallow
embedding of that script: JSON values, the dynamic dictionary
accesses, the set comprehensions, the sorting, and the straight-line
print sequence, together with theorems about the claims made in the
specification.
-/

namespace RosterCompare

/-- JSON values, as far as the script can observe them: strings at the
leaves, arrays, and objects (Python dictionaries with string keys).
Other JSON scalars (numbers, booleans, null) never influence any
behaviour the claims talk about and are omitted from the model. -/
inductive JVal where
  | str : String → JVal
  | arr : List JVal → JVal
  | obj : List (String × JVal) → JVal

/-- Lookup of a key in a Python dictionary, modelled as first match in
an association list. -/
def dictLookup : List (String × JVal) → String → Option JVal
  | [], _ => none
  | (k, v) :: kvs, key => if k = key then some v else dictLookup kvs key

/-- Python subscription value[key]: on a dictionary a missing key
raises KeyError, on any non-dictionary value subscription with a
string key raises TypeError.  Both fates are the error case. -/
def pyGetItem : JVal → String → Except Unit JVal
  | .obj kvs, k =>
    match dictLookup kvs k with
    | some v => .ok v
    | none => .error ()
  | _, _ => .error ()

/-- Access path p[field][\x22default\x22] used by the name rendering on
line 15 of the source; fails when the field or the nested default key
is missing (or the shapes are not dictionaries). -/
def nestedDefault (p : JVal) (field : String) : Except Unit JVal :=
  match pyGetItem p field with
  | .error e => .error e
  | .ok f => pyGetItem f "default"

/-- Rendering of a value inside a Python f-string.  A string renders
as itself, which is the only case the roster schema produces; for
non-string values Python would render a repr text, whose exact
characters no claim depends on, so the model uses a fixed placeholder
for them. -/
def fstr : JVal → String
  | .str s => s
  | _ => "<non-string value>"

/-- PlayerName construction from line 15 of the source, evaluated left
to right exactly as in the f-string: firstName.default, then
lastName.default, joined by one space.  Any failed access aborts the
whole comprehension. -/
def playerName (p : JVal) : Except Unit String :=
  match nestedDefault p "firstName" with
  | .error e => .error e
  | .ok fd =>
    match nestedDefault p "lastName" with
    | .error e => .error e
    | .ok ld => .ok (fstr fd ++ " " ++ fstr ld)

/-- Name rendering over a sequence of player records, in order, fail
fast: the Python set comprehension raises on the first bad record and
otherwise produces every rendered name. -/
def namesOf : List JVal → Except Unit (List String)
  | [] => .ok []
  | p :: ps =>
    match playerName p with
    | .error e => .error e
    | .ok n =>
      match namesOf ps with
      | .error e => .error e
      | .ok ns => .ok (n :: ns)

/-- Python iteration over a JSON value: a list yields its elements, a
dictionary yields its keys, a string yields its one-character
substrings. -/
def pyIter : JVal → List JVal
  | .arr xs => xs
  | .obj kvs => kvs.map fun kv => JVal.str kv.1
  | .str s => s.data.map fun c => JVal.str (String.singleton c)

/-- Name-set extraction for one position group, lines 15 and 16 (and
33 and 34) of the source: season.get(group, empty list), iterate,
render each name, and collect the results into a set.  The set is
represented by a duplicate-free list; its element order stands for the
unspecified iteration order of a Python set and is never relied on
except through the explicit enumeration parameter of the report.
Calling .get on a non-dictionary document raises AttributeError,
which is the error case. -/
def extractNames : JVal → String → Except Unit (List String)
  | .obj kvs, group =>
    (namesOf (pyIter ((dictLookup kvs group).getD (.arr [])))).map List.dedup
  | _, _ => .error ()

/-- Code-point lexicographic strict comparison on character lists,
the order Python uses when comparing strings. -/
def cpLtB : List Char → List Char → Bool
  | [], [] => false
  | [], _ :: _ => true
  | _ :: _, [] => false
  | a :: as, b :: bs =>
    if a.toNat < b.toNat then true
    else if b.toNat < a.toNat then false
    else cpLtB as bs

/-- Strict string comparison by code points. -/
def strLtB (s t : String) : Bool := cpLtB s.data t.data

/-- Non-strict string comparison by code points, as Python defines
s less-or-equal t, namely not (t less-than s). -/
def strLeB (s t : String) : Bool := ! strLtB t s

/-- Insertion of a string into a sorted list, keeping order. -/
def insertStr (x : String) : List String → List String
  | [] => [x]
  | y :: ys => if strLeB x y then x :: y :: ys else y :: insertStr x ys

/-- Model of Python sorted on strings.  Python sorted is a stable
sort over a total order; on strings equal keys are identical
elements, so every correct sorting algorithm returns the same list
and insertion sort is an exact model. -/
def pySorted : List String → List String
  | [] => []
  | x :: xs => insertStr x (pySorted xs)

/-- Set difference a - b on set values represented as lists: the
elements of a that are not in b. -/
def setDiff (a b : List String) : List String :=
  a.filter fun x => decide (x ∉ b)

/-- Set intersection of a and b on set values represented as lists:
the elements of a that are also in b. -/
def setInter (a b : List String) : List String :=
  a.filter fun x => decide (x ∈ b)

/-- Comparison result of one position group, the three derived sets
of the specification. -/
structure ComparisonResult where
  onlyInFirst : List String
  onlyInSecond : List String
  common : List String

/-- Set comparator: the three set expressions the script computes
inline on lines 18 to 29. -/
def compareSets (a b : List String) : ComparisonResult :=
  { onlyInFirst := setDiff a b
    onlyInSecond := setDiff b a
    common := setInter a b }

/-!
Report rendering.  The output is modelled as a list of text lines;
a Python print of a string containing a newline contributes one line
per segment.  Each section definition below covers one block of print
statements of the source, including the leading empty line produced
by the embedded newline at the start of the printed f-string.
-/

/-- Forwards section one, lines 18 to 20: header with count, then the
sorted names of the 24-25 only set, each prefixed by two spaces, a
dash and a space. -/
def fwdOnlySection (a b : List String) : List String :=
  ["", "24-25 Only (" ++ toString (setDiff a b).length ++ "):"]
    ++ (pySorted (setDiff a b)).map fun p => "  - " ++ p

/-- Forwards section two, lines 22 to 24: header with count, then the
sorted names of the 25-26 new set, each prefixed by two spaces, a
plus and a space. -/
def fwdNewSection (a b : List String) : List String :=
  ["", "25-26 New (" ++ toString (setDiff b a).length ++ "):"]
    ++ (pySorted (setDiff b a)).map fun p => "  + " ++ p

/-- Forwards common section, lines 26 to 29.  The argument enumerated
is the list Python materialises from the common set on line 27, an
arbitrary enumeration of it; the script takes its first five elements
and only then sorts them.  The final line with the remaining count is
printed unconditionally, and the count is an integer that can be zero
or negative. -/
def fwdCommonSection (common enumerated : List String) : List String :=
  ["", "Common (" ++ toString common.length ++ "):"]
    ++ ((pySorted (enumerated.take 5)).map fun p => "    " ++ p)
    ++ ["    ... and " ++ toString ((common.length : Int) - 5) ++ " more"]

/-- Goalies section one, lines 36 to 38: header without any count,
then the sorted names of the 24-25 only set. -/
def gOnlySection (a b : List String) : List String :=
  ["", "24-25 Only:"] ++ (pySorted (setDiff a b)).map fun p => "  - " ++ p

/-- Goalies section two, lines 40 to 42: header without any count,
then the sorted names of the 25-26 new set. -/
def gNewSection (a b : List String) : List String :=
  ["", "25-26 New:"] ++ (pySorted (setDiff b a)).map fun p => "  + " ++ p

/-- Goalies common section, lines 44 to 46: header without any count,
then every sorted common name, no truncation and no trailing count
line. -/
def gCommonSection (a b : List String) : List String :=
  ["", "Common:"] ++ (pySorted (setInter a b)).map fun p => "    " ++ p

/-- HTTP response as the requests library hands it to the script: a
status code and a body that either parses as JSON or does not. -/
structure PyResponse where
  status : Nat
  body : Option JVal

/-- Model of r.json() on line 6: parsing the body, raising on a body
that is not valid JSON.  The status code is not consulted anywhere in
the source (there is no raise_for_status call), so a non-2xx response
with a parseable body is returned like any other. -/
def respJson (r : PyResponse) : Except Unit JVal :=
  match r.body with
  | some j => .ok j
  | none => .error ()

/-- Result of one run of the script: the lines written to standard
output before it stopped, and an error marker that is some () exactly
when the run ended in an uncaught exception (non-zero exit status). -/
structure ProgResult where
  output : List String
  err : Option Unit

/-- Lines produced by print of the banner on line 11 followed by
print of FORWARDS: on line 14. -/
def headerLines : List String :=
  ["", "=== UTAH ROSTER COMPARISON ===", "", "FORWARDS:"]

/-- Whole-script model, lines 3 to 46 in source order.  Both fetches
happen before any output.  setEnum stands for the unspecified
iteration order in which Python materialises a set into a list on
line 27; it is applied to the canonical representation of the common
set and theorems that depend on it assume only that it returns a
permutation.  Every failing step stops the run with the lines printed
so far. -/
def script (r24 r25 : PyResponse) (setEnum : List String → List String) :
    ProgResult :=
  match respJson r24 with
  | .error _ => { output := [], err := some () }
  | .ok doc24 =>
    match respJson r25 with
    | .error _ => { output := [], err := some () }
    | .ok doc25 =>
      match extractNames doc24 "forwards" with
      | .error _ => { output := headerLines, err := some () }
      | .ok fwd24 =>
        match extractNames doc25 "forwards" with
        | .error _ => { output := headerLines, err := some () }
        | .ok fwd25 =>
          let fwdOut :=
            headerLines
              ++ fwdOnlySection fwd24 fwd25
              ++ fwdNewSection fwd24 fwd25
              ++ fwdCommonSection (setInter fwd24 fwd25)
                  (setEnum (setInter fwd24 fwd25))
              ++ ["", "", "GOALIES:"]
          match extractNames doc24 "goalies" with
          | .error _ => { output := fwdOut, err := some () }
          | .ok g24 =>
            match extractNames doc25 "goalies" with
            | .error _ => { output := fwdOut, err := some () }
            | .ok g25 =>
              { output :=
                  fwdOut
                    ++ gOnlySection g24 g25
                    ++ gNewSection g24 g25
                    ++ gCommonSection g24 g25
                err := none }

/-- Player record with the roster schema shape, used to build
concrete inputs. -/
def mkPlayer (f l : String) : JVal :=
  .obj [("firstName", .obj [("default", .str f)]),
        ("lastName", .obj [("default", .str l)])]

/-- Roster document for season A used in concrete runs: three
forwards, no goalies key. -/
def sampleDoc24 : JVal :=
  .obj [("forwards", .arr [mkPlayer "Alex" "Kerfoot", mkPlayer "Clayton" "Keller",
                           mkPlayer "Barrett" "Hayton"])]

/-- Roster document for season B used in concrete runs: three
forwards sharing two names with season A, no goalies key. -/
def sampleDoc25 : JVal :=
  .obj [("forwards", .arr [mkPlayer "Clayton" "Keller", mkPlayer "Barrett" "Hayton",
                           mkPlayer "Dylan" "Guenther"])]

/-- Roster document with one goalie, used to exercise the goalies
sections. -/
def goalieDoc24 : JVal :=
  .obj [("forwards", .arr []), ("goalies", .arr [mkPlayer "Connor" "Ingram"])]

/-- Roster document with an empty goalies list. -/
def goalieDoc25 : JVal :=
  .obj [("forwards", .arr []), ("goalies", .arr [])]

/-- Roster document with six forwards, so that the common set of the
document with itself has size six, above the truncation limit. -/
def sixDoc : JVal :=
  .obj [("forwards", .arr [mkPlayer "A" "A", mkPlayer "B" "B", mkPlayer "C" "C",
                           mkPlayer "D" "D", mkPlayer "E" "E", mkPlayer "F" "F"])]

/-- Player record whose lastName mapping has no default key. -/
def noDefaultPlayer : JVal :=
  .obj [("firstName", .obj [("default", .str "Zack")]), ("lastName", .obj [])]

/-- Duplicate-name record list: the first and third records render to
the same PlayerName. -/
def dupPlayers : List JVal :=
  [mkPlayer "A" "B", mkPlayer "C" "D", mkPlayer "A" "B"]

/-- Non-strict code-point order on strings as a proposition. -/
def strLe (s t : String) : Prop := strLeB s t = true

/-- Strict code-point order on strings as a proposition. -/
def strLt (s t : String) : Prop := strLtB s t = true

/-!
Order theory of the code-point comparison.
-/

theorem cpLtB_irrefl (l : List Char) : cpLtB l l = false := by
  induction l with
  | nil => rfl
  | cons a as ih => simp [cpLtB, Nat.lt_irrefl, ih]

theorem char_eq_of_toNat_eq {c d : Char} (h : c.toNat = d.toNat) : c = d :=
  StrictMono.injective (f := Char.toNat) (fun _ _ hab => hab) h

theorem cpLtB_asymm {a : List Char} :
    ∀ {b : List Char}, cpLtB a b = true → cpLtB b a = false := by
  induction a with
  | nil =>
    intro b h
    cases b with
    | nil => simp [cpLtB] at h
    | cons y ys => simp [cpLtB]
  | cons x xs ih =>
    intro b h
    cases b with
    | nil => simp [cpLtB] at h
    | cons y ys =>
      by_cases h1 : x.toNat < y.toNat
      · simp [cpLtB, h1, Nat.lt_asymm h1]
      · by_cases h2 : y.toNat < x.toNat
        · simp [cpLtB, h1, h2] at h
        · have h3 : cpLtB xs ys = true := by simpa [cpLtB, h1, h2] using h
          simp [cpLtB, h1, h2, ih h3]

theorem cpLtB_eq_of_not_lt {a : List Char} :
    ∀ {b : List Char}, cpLtB a b = false → cpLtB b a = false → a = b := by
  induction a with
  | nil =>
    intro b h1 h2
    cases b with
    | nil => rfl
    | cons y ys => simp [cpLtB] at h1
  | cons x xs ih =>
    intro b h1 h2
    cases b with
    | nil => simp [cpLtB] at h2
    | cons y ys =>
      by_cases hxy : x.toNat < y.toNat
      · simp [cpLtB, hxy] at h1
      · by_cases hyx : y.toNat < x.toNat
        · simp [cpLtB, hyx] at h2
        · have hx : x = y :=
            char_eq_of_toNat_eq
              (Nat.le_antisymm (Nat.le_of_not_lt hyx) (Nat.le_of_not_lt hxy))
          have t1 : cpLtB xs ys = false := by simpa [cpLtB, hxy, hyx] using h1
          have t2 : cpLtB ys xs = false := by simpa [cpLtB, hxy, hyx] using h2
          rw [hx, ih t1 t2]

theorem cpLtB_trans {a : List Char} :
    ∀ {b c : List Char}, cpLtB a b = true → cpLtB b c = true → cpLtB a c = true := by
  induction a with
  | nil =>
    intro b c h1 h2
    cases b with
    | nil => simp [cpLtB] at h1
    | cons y ys =>
      cases c with
      | nil => simp [cpLtB] at h2
      | cons z zs => simp [cpLtB]
  | cons x xs ih =>
    intro b c h1 h2
    cases b with
    | nil => simp [cpLtB] at h1
    | cons y ys =>
      cases c with
      | nil => simp [cpLtB] at h2
      | cons z zs =>
        by_cases hxy : x.toNat < y.toNat
        · by_cases hyz : y.toNat < z.toNat
          · simp [cpLtB, Nat.lt_trans hxy hyz]
          · by_cases hzy : z.toNat < y.toNat
            · simp [cpLtB, hyz, hzy] at h2
            · have hy : y.toNat = z.toNat :=
                Nat.le_antisymm (Nat.le_of_not_lt hzy) (Nat.le_of_not_lt hyz)
              have hxz : x.toNat < z.toNat := hy ▸ hxy
              simp [cpLtB, hxz]
        · by_cases hyx : y.toNat < x.toNat
          · simp [cpLtB, hxy, hyx] at h1
          · have hx : x.toNat = y.toNat :=
              Nat.le_antisymm (Nat.le_of_not_lt hyx) (Nat.le_of_not_lt hxy)
            have hxs : cpLtB xs ys = true := by simpa [cpLtB, hxy, hyx] using h1
            by_cases hyz : y.toNat < z.toNat
            · have hxz : x.toNat < z.toNat := hx ▸ hyz
              simp [cpLtB, hxz]
            · by_cases hzy : z.toNat < y.toNat
              · simp [cpLtB, hyz, hzy] at h2
              · have hys : cpLtB ys zs = true := by simpa [cpLtB, hyz, hzy] using h2
                have hy : y.toNat = z.toNat :=
                  Nat.le_antisymm (Nat.le_of_not_lt hzy) (Nat.le_of_not_lt hyz)
                have hxz : ¬ x.toNat < z.toNat := by
                  rw [hx, hy]
                  exact Nat.lt_irrefl _
                have hzx : ¬ z.toNat < x.toNat := by
                  rw [hx, hy]
                  exact Nat.lt_irrefl _
                simp [cpLtB, hxz, hzx, ih hxs hys]

theorem string_eq_of_data_eq {s t : String} (h : s.data = t.data) : s = t := by
  cases s
  cases t
  exact congrArg String.mk h

theorem strLe_total (s t : String) : strLe s t ∨ strLe t s := by
  unfold strLe strLeB strLtB
  by_cases h : cpLtB t.data s.data = true
  · right
    simp [cpLtB_asymm h]
  · left
    simp [h]

theorem strLe_antisymm {s t : String} (h1 : strLe s t) (h2 : strLe t s) : s = t := by
  unfold strLe strLeB strLtB at h1 h2
  simp only [Bool.not_eq_true', Bool.not_eq_true] at h1 h2
  exact string_eq_of_data_eq (cpLtB_eq_of_not_lt h2 h1)

theorem strLe_trans {a b c : String} (h1 : strLe a b) (h2 : strLe b c) : strLe a c := by
  unfold strLe strLeB strLtB at h1 h2 ⊢
  simp only [Bool.not_eq_true', Bool.not_eq_true] at h1 h2 ⊢
  by_cases h3 : cpLtB c.data a.data = true
  · by_cases h4 : cpLtB a.data b.data = true
    · rw [cpLtB_trans h3 h4] at h2
      exact absurd h2 (by simp)
    · have hab : a.data = b.data :=
        cpLtB_eq_of_not_lt (by simpa using h4) h1
      rw [hab] at h3
      rw [h3] at h2
      exact absurd h2 (by simp)
  · simpa using h3

theorem strLt_of_le_ne {s t : String} (h1 : strLe s t) (h2 : s ≠ t) : strLt s t := by
  unfold strLe strLeB strLtB at h1
  unfold strLt strLtB
  simp only [Bool.not_eq_true', Bool.not_eq_true] at h1
  by_cases h3 : cpLtB s.data t.data = true
  · exact h3
  · exact absurd (string_eq_of_data_eq (cpLtB_eq_of_not_lt (by simpa using h3) h1)) h2

/-!
Facts about the sorting model.
-/

theorem insertStr_perm (x : String) (l : List String) :
    (insertStr x l).Perm (x :: l) := by
  induction l with
  | nil => exact List.Perm.refl _
  | cons y ys ih =>
    by_cases h : strLeB x y = true
    · simp [insertStr, h]
    · simp only [insertStr, h, Bool.false_eq_true, if_false]
      exact (List.Perm.cons y ih).trans (List.Perm.swap x y ys)

theorem pySorted_perm (l : List String) : (pySorted l).Perm l := by
  induction l with
  | nil => exact List.Perm.refl _
  | cons x xs ih =>
    exact (insertStr_perm x (pySorted xs)).trans (List.Perm.cons x ih)

theorem mem_insertStr {z x : String} {l : List String} :
    z ∈ insertStr x l ↔ z = x ∨ z ∈ l := by
  rw [(insertStr_perm x l).mem_iff]
  simp

theorem insertStr_pairwise {x : String} {l : List String}
    (hl : l.Pairwise strLe) : (insertStr x l).Pairwise strLe := by
  induction l with
  | nil => simp [insertStr]
  | cons y ys ih =>
    have hy := (List.pairwise_cons.mp hl).1
    have hys := (List.pairwise_cons.mp hl).2
    by_cases h : strLeB x y = true
    · simp only [insertStr, h, if_true]
      refine List.pairwise_cons.mpr ⟨?_, hl⟩
      intro z hz
      rcases List.mem_cons.mp hz with hz | hz
      · rw [hz]
        exact h
      · exact strLe_trans h (hy z hz)
    · simp only [insertStr, h, Bool.false_eq_true, if_false]
      refine List.pairwise_cons.mpr ⟨?_, ih hys⟩
      intro z hz
      rcases mem_insertStr.mp hz with hz | hz
      · rw [hz]
        rcases strLe_total y x with hxy | hxy
        · exact hxy
        · exact absurd hxy h
      · exact hy z hz

theorem pySorted_pairwise (l : List String) : (pySorted l).Pairwise strLe := by
  induction l with
  | nil => simp [pySorted]
  | cons x xs ih => exact insertStr_pairwise ih

theorem pySorted_eq_of_perm {l m : List String} (h : l.Perm m) :
    pySorted l = pySorted m :=
  @List.eq_of_perm_of_sorted String strLe ⟨fun _ _ => strLe_antisymm⟩ _ _
    ((pySorted_perm l).trans (h.trans (pySorted_perm m).symm))
    (pySorted_pairwise l) (pySorted_pairwise m)

theorem pySorted_length (l : List String) : (pySorted l).length = l.length :=
  (pySorted_perm l).length_eq

theorem pySorted_nodup {l : List String} (h : l.Nodup) : (pySorted l).Nodup :=
  ((pySorted_perm l).nodup_iff).mpr h

theorem pairwise_strLt_of_sorted_nodup {l : List String}
    (hs : l.Pairwise strLe) (hn : l.Nodup) : l.Pairwise strLt :=
  (hs.and hn).imp fun hab => strLt_of_le_ne hab.1 hab.2

theorem cpLtB_append (pre : List Char) (a b : List Char) :
    cpLtB (pre ++ a) (pre ++ b) = cpLtB a b := by
  induction pre with
  | nil => rfl
  | cons c cs ih => simp [cpLtB, Nat.lt_irrefl, ih]

theorem strLeB_append (pre a b : String) :
    strLeB (pre ++ a) (pre ++ b) = strLeB a b := by
  simp [strLeB, strLtB, String.data_append, cpLtB_append]

theorem pairwise_map_prefix (pre : String) {l : List String}
    (h : l.Pairwise strLe) : (l.map fun p => pre ++ p).Pairwise strLe := by
  refine List.Pairwise.map _ ?_ h
  intro a b hab
  unfold strLe at hab ⊢
  rw [strLeB_append]
  exact hab

/-!
Facts about the set operations.
-/

theorem mem_setDiff {x : String} {a b : List String} :
    x ∈ setDiff a b ↔ x ∈ a ∧ x ∉ b := by
  simp [setDiff, List.mem_filter]

theorem mem_setInter {x : String} {a b : List String} :
    x ∈ setInter a b ↔ x ∈ a ∧ x ∈ b := by
  simp [setInter, List.mem_filter]

theorem setInter_nodup {a b : List String} (h : a.Nodup) :
    (setInter a b).Nodup :=
  List.Nodup.filter _ h

/-!
Facts about the name extraction.
-/

theorem namesOf_error_iff {ps : List JVal} :
    namesOf ps = .error () ↔ ∃ p ∈ ps, playerName p = .error () := by
  induction ps with
  | nil => simp [namesOf]
  | cons p ps ih =>
    cases hp : playerName p with
    | error e =>
      cases e
      simp [namesOf, hp]
    | ok n =>
      cases hs : namesOf ps with
      | error e =>
        cases e
        have hred : namesOf (p :: ps) = Except.error () := by
          simp [namesOf, hp, hs]
        rw [hred]
        simp only [eq_self_iff_true, true_iff]
        obtain ⟨q, hq, hbad⟩ := ih.mp hs
        exact ⟨q, List.mem_cons.mpr (Or.inr hq), hbad⟩
      | ok ns =>
        simp only [namesOf, hp, hs]
        constructor
        · intro h
          exact absurd h (by simp)
        · rintro ⟨q, hq, hbad⟩
          rcases List.mem_cons.mp hq with rfl | hq
          · rw [hp] at hbad
            exact absurd hbad (by simp)
          · have : namesOf ps = .error () := ih.mpr ⟨q, hq, hbad⟩
            rw [hs] at this
            exact absurd this (by simp)

theorem namesOf_ok {ps : List JVal} {l : List String} (h : namesOf ps = .ok l) :
    l = ps.filterMap fun p => (playerName p).toOption := by
  induction ps generalizing l with
  | nil =>
    simp only [namesOf] at h
    cases h
    rfl
  | cons p ps ih =>
    cases hp : playerName p with
    | error e => simp [namesOf, hp] at h
    | ok n =>
      cases hs : namesOf ps with
      | error e => simp [namesOf, hp, hs] at h
      | ok ns =>
        simp only [namesOf, hp, hs] at h
        cases h
        simp [List.filterMap_cons, hp, Except.toOption, ih hs]

theorem except_map_eq_error {α β : Type} (f : α → β) (e : Except Unit α) :
    e.map f = .error () ↔ e = .error () := by
  cases e with
  | error u =>
    cases u
    simp [Except.map]
  | ok a => simp [Except.map]

/-!
Claim theorems.
-/

/-- C5: for all name sets a and b, the comparison results
onlyInFirst, onlyInSecond and common are pairwise disjoint and their
union is exactly the union of a and b, with no special-casing of
empty sets. -/
theorem claim_C5 (a b : List String) :
    ((compareSets a b).onlyInFirst.toFinset ∩ (compareSets a b).onlyInSecond.toFinset = ∅)
  ∧ ((compareSets a b).onlyInFirst.toFinset ∩ (compareSets a b).common.toFinset = ∅)
  ∧ ((compareSets a b).onlyInSecond.toFinset ∩ (compareSets a b).common.toFinset = ∅)
  ∧ ((compareSets a b).onlyInFirst.toFinset ∪ (compareSets a b).onlyInSecond.toFinset
      ∪ (compareSets a b).common.toFinset = a.toFinset ∪ b.toFinset) := by
  refine ⟨?_, ?_, ?_, ?_⟩ <;>
  · ext x
    simp only [Finset.mem_inter, Finset.mem_union, Finset.not_mem_empty,
      List.mem_toFinset, compareSets, setDiff, setInter, List.mem_filter,
      decide_eq_true_eq, iff_false, not_and]
    tauto

/-- C6: a roster document without the requested position-group key
yields the empty name set without an error, and a sub-list computed
from the empty set prints no name lines. -/
theorem claim_C6 (kvs : List (String × JVal)) (group : String)
    (other : List String) (h : dictLookup kvs group = none) :
    extractNames (.obj kvs) group = .ok []
  ∧ gOnlySection [] other = ["", "24-25 Only:"]
  ∧ gCommonSection [] other = ["", "Common:"] := by
  refine ⟨?_, rfl, rfl⟩
  simp [extractNames, h, pyIter, namesOf, Except.map]

/-- Witness for C6 at a document that has a forwards key but no
goalies key. -/
theorem claim_C6_witness :
    dictLookup [("forwards", JVal.arr [])] "goalies" = none
  ∧ (extractNames (.obj [("forwards", JVal.arr [])]) "goalies" = .ok []
      ∧ gOnlySection [] ["Connor Ingram"] = ["", "24-25 Only:"]
      ∧ gCommonSection [] ["Connor Ingram"] = ["", "Common:"]) :=
  ⟨rfl, claim_C6 [("forwards", JVal.arr [])] "goalies" ["Connor Ingram"] rfl⟩

/-- C4 as stated is false: the goalies headers carry no counts.  At a
concrete run whose goalies only-sub-list has exactly one entry, the
printed header is the bare text without a count, and the header with
the count in parentheses appears nowhere in the output. -/
theorem claim_C4_counterexample :
    extractNames goalieDoc24 "goalies" = .ok ["Connor Ingram"]
  ∧ "24-25 Only:" ∈ (script ⟨200, some goalieDoc24⟩ ⟨200, some goalieDoc25⟩ id).output
  ∧ "  - Connor Ingram" ∈ (script ⟨200, some goalieDoc24⟩ ⟨200, some goalieDoc25⟩ id).output
  ∧ "24-25 Only (1):" ∉ (script ⟨200, some goalieDoc24⟩ ⟨200, some goalieDoc25⟩ id).output := by
  refine ⟨rfl, ?_, ?_, ?_⟩ <;> decide

/-- C4 amended: the three forwards headers carry the count of the
sub-list that follows them in parentheses, while the three goalies
headers are printed without any count. -/
theorem claim_C4 (a b c enumd : List String) :
    (fwdOnlySection a b).get? 1 =
      some ("24-25 Only (" ++ toString (setDiff a b).length ++ "):")
  ∧ ((fwdOnlySection a b).drop 2).length = (setDiff a b).length
  ∧ (fwdNewSection a b).get? 1 =
      some ("25-26 New (" ++ toString (setDiff b a).length ++ "):")
  ∧ ((fwdNewSection a b).drop 2).length = (setDiff b a).length
  ∧ (fwdCommonSection c enumd).get? 1 =
      some ("Common (" ++ toString c.length ++ "):")
  ∧ (gOnlySection a b).get? 1 = some "24-25 Only:"
  ∧ (gNewSection a b).get? 1 = some "25-26 New:"
  ∧ (gCommonSection a b).get? 1 = some "Common:" := by
  refine ⟨rfl, ?_, rfl, ?_, rfl, rfl, rfl, rfl⟩
  · simp [fwdOnlySection, pySorted_length]
  · simp [fwdNewSection, pySorted_length]

/-- C8: within every printed sub-list the name lines are
non-decreasing in plain case-sensitive code-point order, which is
exactly the order strLe defined over the code points of the rendered
lines; there is no locale collation and no last-name-first
reordering because the compared keys are the final printed lines. -/
theorem claim_C8 (a b c enumd : List String) :
    ((fwdOnlySection a b).drop 2).Pairwise strLe
  ∧ ((fwdNewSection a b).drop 2).Pairwise strLe
  ∧ (((fwdCommonSection c enumd).drop 2).dropLast).Pairwise strLe
  ∧ ((gOnlySection a b).drop 2).Pairwise strLe
  ∧ ((gNewSection a b).drop 2).Pairwise strLe
  ∧ ((gCommonSection a b).drop 2).Pairwise strLe := by
  refine ⟨?_, ?_, ?_, ?_, ?_, ?_⟩
  · exact pairwise_map_prefix "  - " (pySorted_pairwise (setDiff a b))
  · exact pairwise_map_prefix "  + " (pySorted_pairwise (setDiff b a))
  · have hd : ((fwdCommonSection c enumd).drop 2).dropLast =
        (pySorted (enumd.take 5)).map fun p => "    " ++ p := by
      show (((pySorted (enumd.take 5)).map fun p => "    " ++ p)
        ++ ["    ... and " ++ toString ((c.length : Int) - 5) ++ " more"]).dropLast = _
      exact List.dropLast_concat
    rw [hd]
    exact pairwise_map_prefix "    " (pySorted_pairwise (enumd.take 5))
  · exact pairwise_map_prefix "  - " (pySorted_pairwise (setDiff a b))
  · exact pairwise_map_prefix "  + " (pySorted_pairwise (setDiff b a))
  · exact pairwise_map_prefix "    " (pySorted_pairwise (setInter a b))

/-- C3 as stated is false: the fetch never consults the HTTP status
code, so a response with status 404 whose body is valid JSON is
processed like a success.  At a concrete run where season B answers
404 with a JSON body, the program exits without error and prints the
full report. -/
theorem claim_C3_counterexample :
    (script ⟨200, some (.obj [])⟩ ⟨404, some (.obj [])⟩ id).err = none
  ∧ "24-25 Only (0):" ∈ (script ⟨200, some (.obj [])⟩ ⟨404, some (.obj [])⟩ id).output := by
  refine ⟨?_, ?_⟩ <;> decide

/-- C3 amended: the program terminates with no report line and a
non-zero exit status exactly for responses whose body is not valid
JSON; the HTTP status code is never consulted, so changing the status
of either response changes nothing. -/
theorem claim_C3 (r1 r2 : PyResponse) (enumf : List String → List String)
    (h : r1.body = none ∨ r2.body = none) :
    script r1 r2 enumf = { output := [], err := some () }
  ∧ ∀ st1 st2 : Nat,
      script { status := st1, body := r1.body } { status := st2, body := r2.body } enumf
        = script r1 r2 enumf := by
  constructor
  · rcases h with h | h
    · simp [script, respJson, h]
    · cases hb : r1.body with
      | none => simp [script, respJson, hb]
      | some j => simp [script, respJson, hb, h]
  · intro st1 st2
    rfl

/-- Witness for C3 at a run whose first response body fails to parse
as JSON. -/
theorem claim_C3_witness :
    ((⟨500, none⟩ : PyResponse).body = none
      ∨ (⟨200, some (JVal.obj [])⟩ : PyResponse).body = none)
  ∧ script ⟨500, none⟩ ⟨200, some (JVal.obj [])⟩ id
      = { output := [], err := some () } :=
  ⟨Or.inl rfl, (claim_C3 ⟨500, none⟩ ⟨200, some (JVal.obj [])⟩ id (Or.inl rfl)).1⟩

/-- C7: a player record in a present position-group sequence whose
nested default field under firstName or lastName is missing makes the
name rendering fail, the extraction of the whole group fail, and the
script stop with a non-zero exit right after the FORWARDS header,
with no default value substituted anywhere. -/
theorem claim_C7 (p : JVal) (ps : List JVal) (kvs24 : List (String × JVal))
    (doc25 : JVal) (st24 st25 : Nat) (enumf : List String → List String)
    (hbad : nestedDefault p "firstName" = .error ()
      ∨ nestedDefault p "lastName" = .error ())
    (hmem : p ∈ ps)
    (hlook : dictLookup kvs24 "forwards" = some (.arr ps)) :
    playerName p = .error ()
  ∧ extractNames (.obj kvs24) "forwards" = .error ()
  ∧ script ⟨st24, some (.obj kvs24)⟩ ⟨st25, some doc25⟩ enumf
      = { output := headerLines, err := some () } := by
  have hpn : playerName p = .error () := by
    rcases hbad with h | h
    · simp [playerName, h]
    · cases hfd : nestedDefault p "firstName" with
      | error e =>
        cases e
        simp [playerName, hfd]
      | ok fd => simp [playerName, hfd, h]
  have hno : namesOf ps = .error () := namesOf_error_iff.mpr ⟨p, hmem, hpn⟩
  have hex : extractNames (.obj kvs24) "forwards" = .error () := by
    simp [extractNames, hlook, pyIter, hno, Except.map]
  refine ⟨hpn, hex, ?_⟩
  simp [script, respJson, hex]

/-- Witness for C7 at a record whose lastName mapping lacks the
default key. -/
theorem claim_C7_witness :
    (nestedDefault noDefaultPlayer "lastName" = .error ())
  ∧ noDefaultPlayer ∈ [noDefaultPlayer]
  ∧ dictLookup [("forwards", JVal.arr [noDefaultPlayer])] "forwards"
      = some (.arr [noDefaultPlayer])
  ∧ (playerName noDefaultPlayer = .error ()
      ∧ extractNames (.obj [("forwards", JVal.arr [noDefaultPlayer])]) "forwards"
          = .error ()
      ∧ script ⟨200, some (.obj [("forwards", JVal.arr [noDefaultPlayer])])⟩
          ⟨200, some (.obj [])⟩ id
          = { output := headerLines, err := some () }) :=
  ⟨rfl, List.Mem.head _, rfl,
    claim_C7 noDefaultPlayer [noDefaultPlayer] [("forwards", JVal.arr [noDefaultPlayer])]
      (.obj []) 200 200 id (Or.inr rfl) (List.Mem.head _) rfl⟩

/-- C9: permuting the player records of a position-group sequence
neither creates nor removes an extraction error, and on success the
extracted name sets have the same elements; duplicate rendered names
collapse, the results being duplicate-free. -/
theorem claim_C9 (g : String) (ps qs : List JVal) (hperm : ps.Perm qs) :
    (extractNames (.obj [(g, .arr ps)]) g = .error ()
       ↔ extractNames (.obj [(g, .arr qs)]) g = .error ())
  ∧ ∀ l m, extractNames (.obj [(g, .arr ps)]) g = .ok l →
        extractNames (.obj [(g, .arr qs)]) g = .ok m →
        l.toFinset = m.toFinset ∧ l.Nodup ∧ m.Nodup := by
  have hup : extractNames (.obj [(g, .arr ps)]) g = (namesOf ps).map List.dedup := by
    simp [extractNames, dictLookup, pyIter]
  have huq : extractNames (.obj [(g, .arr qs)]) g = (namesOf qs).map List.dedup := by
    simp [extractNames, dictLookup, pyIter]
  constructor
  · rw [hup, huq, except_map_eq_error, except_map_eq_error,
      namesOf_error_iff, namesOf_error_iff]
    constructor
    · rintro ⟨q, hq, hb⟩
      exact ⟨q, (hperm.mem_iff).mp hq, hb⟩
    · rintro ⟨q, hq, hb⟩
      exact ⟨q, (hperm.mem_iff).mpr hq, hb⟩
  · intro l m hl hm
    rw [hup] at hl
    rw [huq] at hm
    cases hps : namesOf ps with
    | error e =>
      rw [hps] at hl
      exact absurd hl (by simp [Except.map])
    | ok l0 =>
      cases hqs : namesOf qs with
      | error e =>
        rw [hqs] at hm
        exact absurd hm (by simp [Except.map])
      | ok m0 =>
        rw [hps] at hl
        rw [hqs] at hm
        simp only [Except.map] at hl hm
        cases hl
        cases hm
        have hl0 : l0 = ps.filterMap fun p => (playerName p).toOption := namesOf_ok hps
        have hm0 : m0 = qs.filterMap fun p => (playerName p).toOption := namesOf_ok hqs
        have hpm : l0.Perm m0 := by
          rw [hl0, hm0]
          exact hperm.filterMap _
        exact ⟨List.toFinset_eq_of_perm _ _ hpm.dedup, List.nodup_dedup l0,
          List.nodup_dedup m0⟩

/-- Witness for C9 at a record list holding a duplicated name,
permuted by reversal. -/
theorem claim_C9_witness :
    dupPlayers.Perm dupPlayers.reverse
  ∧ extractNames (.obj [("forwards", JVal.arr dupPlayers)]) "forwards"
      = .ok ["C D", "A B"]
  ∧ extractNames (.obj [("forwards", JVal.arr dupPlayers.reverse)]) "forwards"
      = .ok ["C D", "A B"]
  ∧ ((["C D", "A B"] : List String).toFinset = (["C D", "A B"] : List String).toFinset
      ∧ (["C D", "A B"] : List String).Nodup
      ∧ (["C D", "A B"] : List String).Nodup) :=
  ⟨(List.reverse_perm dupPlayers).symm, rfl, rfl,
    (claim_C9 "forwards" dupPlayers dupPlayers.reverse
      (List.reverse_perm dupPlayers).symm).2 _ _ rfl rfl⟩

/-- C1 as stated is false: the line with the remaining count is
printed unconditionally, even when the common set has at most five
elements.  At a concrete run with exactly two common forwards, both
names print and the trailing count line still appears, reading a
negative number. -/
theorem claim_C1_counterexample :
    "Common (2):" ∈ (script ⟨200, some sampleDoc24⟩ ⟨200, some sampleDoc25⟩ id).output
  ∧ "    Barrett Hayton" ∈ (script ⟨200, some sampleDoc24⟩ ⟨200, some sampleDoc25⟩ id).output
  ∧ "    Clayton Keller" ∈ (script ⟨200, some sampleDoc24⟩ ⟨200, some sampleDoc25⟩ id).output
  ∧ "    ... and -3 more" ∈ (script ⟨200, some sampleDoc24⟩ ⟨200, some sampleDoc25⟩ id).output := by
  refine ⟨?_, ?_, ?_, ?_⟩ <;> decide

/-- C1 amended: when the common set has size at most five, all of its
names print in sorted order, but the trailing count line is still
printed, carrying the non-positive value size minus five. -/
theorem claim_C1 (common enumd : List String) (hperm : enumd.Perm common)
    (hlen : common.length ≤ 5) :
    fwdCommonSection common enumd =
      ["", "Common (" ++ toString common.length ++ "):"]
        ++ ((pySorted common).map fun p => "    " ++ p)
        ++ ["    ... and " ++ toString ((common.length : Int) - 5) ++ " more"]
  ∧ (common.length : Int) - 5 ≤ 0 := by
  constructor
  · have htake : enumd.take 5 = enumd := by
      refine List.take_of_length_le ?_
      rw [hperm.length_eq]
      exact hlen
    unfold fwdCommonSection
    rw [htake, pySorted_eq_of_perm hperm]
  · omega

/-- Witness for C1 at a two-element common set enumerated out of
order. -/
theorem claim_C1_witness :
    (["a", "b"] : List String).Perm ["b", "a"]
  ∧ (["b", "a"] : List String).length ≤ 5
  ∧ (fwdCommonSection ["b", "a"] ["a", "b"] =
      ["", "Common (" ++ toString (["b", "a"] : List String).length ++ "):"]
        ++ ((pySorted ["b", "a"]).map fun p => "    " ++ p)
        ++ ["    ... and " ++ toString (((["b", "a"] : List String).length : Int) - 5) ++ " more"]
      ∧ ((["b", "a"] : List String).length : Int) - 5 ≤ 0) :=
  ⟨by decide, by decide, claim_C1 ["b", "a"] ["a", "b"] (by decide) (by decide)⟩

/-- C2 as stated is false: the script takes five elements of the
unordered set enumeration first and sorts only afterwards, so the
printed sample need not contain the smallest common names.  With six
common forwards and the materialisation order reversed relative to
the canonical one, the smallest name A A never prints even though the
claim requires it. -/
theorem claim_C2_counterexample :
    extractNames sixDoc "forwards" = .ok ["A A", "B B", "C C", "D D", "E E", "F F"]
  ∧ (List.reverse ["A A", "B B", "C C", "D D", "E E", "F F"]).Perm
      ["A A", "B B", "C C", "D D", "E E", "F F"]
  ∧ "Common (6):" ∈ (script ⟨200, some sixDoc⟩ ⟨200, some sixDoc⟩ List.reverse).output
  ∧ "    A A" ∉ (script ⟨200, some sixDoc⟩ ⟨200, some sixDoc⟩ List.reverse).output
  ∧ "    F F" ∈ (script ⟨200, some sixDoc⟩ ⟨200, some sixDoc⟩ List.reverse).output := by
  refine ⟨rfl, ?_, ?_, ?_, ?_⟩ <;> decide

/-- C2 amended: when the common set has size n above five, the
printed names are the sorted first five elements of the unspecified
set enumeration — five pairwise-distinct common names in strictly
increasing code-point order, not necessarily the five smallest —
followed by exactly one line carrying the positive count n minus
five. -/
theorem claim_C2 (common enumd : List String) (hperm : enumd.Perm common)
    (hnd : common.Nodup) (hlen : 5 < common.length) :
    (fwdCommonSection common enumd =
        ["", "Common (" ++ toString common.length ++ "):"]
          ++ ((pySorted (enumd.take 5)).map fun p => "    " ++ p)
          ++ ["    ... and " ++ toString ((common.length : Int) - 5) ++ " more"])
  ∧ (pySorted (enumd.take 5)).length = 5
  ∧ (∀ x ∈ pySorted (enumd.take 5), x ∈ common)
  ∧ (pySorted (enumd.take 5)).Pairwise strLt
  ∧ 0 < (common.length : Int) - 5 := by
  refine ⟨rfl, ?_, ?_, ?_, ?_⟩
  · rw [pySorted_length, List.length_take, hperm.length_eq]
    exact inf_eq_left.mpr (le_of_lt hlen)
  · intro x hx
    have hx2 : x ∈ enumd.take 5 := ((pySorted_perm _).mem_iff).mp hx
    exact (hperm.mem_iff).mp (List.take_subset _ _ hx2)
  · refine pairwise_strLt_of_sorted_nodup (pySorted_pairwise _) ?_
    refine pySorted_nodup ?_
    exact List.Nodup.sublist (List.take_sublist 5 enumd)
      ((hperm.nodup_iff).mpr hnd)
  · omega

/-- Witness for C2 at a six-element common set enumerated with the
largest element first. -/
theorem claim_C2_witness :
    (["f", "a", "b", "c", "d", "e"] : List String).Perm ["a", "b", "c", "d", "e", "f"]
  ∧ (["a", "b", "c", "d", "e", "f"] : List String).Nodup
  ∧ 5 < (["a", "b", "c", "d", "e", "f"] : List String).length
  ∧ fwdCommonSection ["a", "b", "c", "d", "e", "f"] ["f", "a", "b", "c", "d", "e"] =
      ["", "Common (6):", "    a", "    b", "    c", "    d", "    f",
       "    ... and 1 more"] :=
  ⟨by decide, by decide, by decide,
    (claim_C2 ["a", "b", "c", "d", "e", "f"] ["f", "a", "b", "c", "d", "e"]
      (by decide) (by decide) (by decide)).1⟩

/-- C10: the names printed in the forwards common section before the
trailing count line are at most five pairwise-distinct members of the
common set, in strictly increasing code-point order among themselves,
for every enumeration of the set. -/
theorem claim_C10 (fwd24 fwd25 enumd : List String) (hnd : fwd24.Nodup)
    (hperm : enumd.Perm (setInter fwd24 fwd25)) :
    (fwdCommonSection (setInter fwd24 fwd25) enumd =
        ["", "Common (" ++ toString (setInter fwd24 fwd25).length ++ "):"]
          ++ ((pySorted (enumd.take 5)).map fun p => "    " ++ p)
          ++ ["    ... and " ++ toString (((setInter fwd24 fwd25).length : Int) - 5) ++ " more"])
  ∧ (pySorted (enumd.take 5)).length ≤ 5
  ∧ (∀ x ∈ pySorted (enumd.take 5), x ∈ fwd24 ∧ x ∈ fwd25)
  ∧ (pySorted (enumd.take 5)).Pairwise strLt := by
  refine ⟨rfl, ?_, ?_, ?_⟩
  · rw [pySorted_length, List.length_take]
    exact inf_le_left
  · intro x hx
    have hx2 : x ∈ enumd.take 5 := ((pySorted_perm _).mem_iff).mp hx
    exact mem_setInter.mp ((hperm.mem_iff).mp (List.take_subset _ _ hx2))
  · refine pairwise_strLt_of_sorted_nodup (pySorted_pairwise _) ?_
    refine pySorted_nodup ?_
    exact List.Nodup.sublist (List.take_sublist 5 enumd)
      ((hperm.nodup_iff).mpr (setInter_nodup hnd))

/-- Witness for C10 at a three-element versus three-element roster
pair with a two-element common set enumerated out of order. -/
theorem claim_C10_witness :
    (["a", "b", "c"] : List String).Nodup
  ∧ (["c", "b"] : List String).Perm (setInter ["a", "b", "c"] ["b", "c", "d"])
  ∧ (pySorted ((["c", "b"] : List String).take 5)).length ≤ 5
  ∧ (pySorted ((["c", "b"] : List String).take 5)).Pairwise strLt :=
  ⟨by decide, by decide,
    (claim_C10 ["a", "b", "c"] ["b", "c", "d"] ["c", "b"] (by decide) (by decide)).2.1,
    (claim_C10 ["a", "b", "c"] ["b", "c", "d"] ["c", "b"] (by decide) (by decide)).2.2.2⟩

end RosterCompare

